import Mathlib

/-!
Verification of the govd download pipeline (src/util/download.go and the
Reddit extractor) against its natural-language specification.

The Go code is shallowly embedded: pure helpers become Lean functions on
`Nat`/`String`; effectful functions become deterministic functions of an
explicit environment recording the outcome of each external interaction
(HTTP probe, file creation, truncation, per-chunk download, remux, ...).
Go `int` values that are sizes/counts are embedded as `Nat` (all the
specified scenarios keep them non-negative); `math.Ceil` over exact
integer ratios is embedded as exact ceiling division.
-/

/-- Abstract Go `error` values: a plain message, a wrapped cause
(`fmt.Errorf("...: %w", err)`), the `ErrDownloadFailed` aggregate
(`fmt.Errorf("%w: %v", ErrDownloadFailed, errs)`), or `ctx.Err()`. -/
inductive GoErr where
  | msg (s : String)
  | wrap (s : String) (e : GoErr)
  | downloadFailed (errs : List GoErr)
  | ctxCanceled

/-- Embedding of `createChunks` (src/util/download.go:358-376).
`numChunks := int(math.Ceil(float64(fileSize) / float64(chunkSize)))` is
the exact ceiling `(fileSize + chunkSize - 1) / chunkSize` on the integer
inputs the downloader produces; each chunk is the inclusive byte range
`[start, end]` with `end` clamped to `fileSize - 1`. -/
def createChunks (fileSize chunkSize : Nat) : List (Nat × Nat) :=
  if fileSize = 0 then [(0, 0)]
  else
    (List.range ((fileSize + chunkSize - 1) / chunkSize)).map (fun i =>
      (i * chunkSize,
       if fileSize ≤ i * chunkSize + chunkSize - 1 then fileSize - 1
       else i * chunkSize + chunkSize - 1))

/-- Length of an inclusive chunk `[start, end]`, as the Go code computes it:
`chunkSize := chunk[1] - chunk[0] + 1` (src/util/download.go:237). -/
def chunkLen (ch : Nat × Nat) : Nat := ch.2 - ch.1 + 1

/-- An HTTP request as the downloader builds it: method, URL and headers. -/
structure HTTPRequest where
  method : String
  url : String
  headers : List (String × String)

/-- The request built by `downloadChunk` (src/util/download.go:333-337): a GET
that always adds `Range: bytes=<start>-<end>` for its chunk. -/
def chunkRequest (fileURL : String) (chunk : Nat × Nat) : HTTPRequest :=
  { method := "GET"
    url := fileURL
    headers := [("Range", "bytes=" ++ toString chunk.1 ++ "-" ++ toString chunk.2)] }

/-- `models.DownloadConfig` as the download code reads it. `Timeout` and
`RetryDelay` are abstract durations; `ProgressUpdater` is an external callback
recorded only by its presence (`true` = non-nil). -/
structure DownloadConfig where
  ChunkSize : Nat
  Concurrency : Nat
  Timeout : Nat
  DownloadDir : String
  RetryAttempts : Nat
  RetryDelay : Nat
  Remux : Bool
  ProgressUpdater : Bool

/-- Embedding of `DefaultConfig` (src/util/download.go:19-29); `Timeout` in
seconds, `RetryDelay` in seconds. -/
def DefaultConfig : DownloadConfig :=
  { ChunkSize := 10 * 1024 * 1024
    Concurrency := 4
    Timeout := 30
    DownloadDir := "downloads"
    RetryAttempts := 3
    RetryDelay := 2
    Remux := true
    ProgressUpdater := false }

/-- `filepath.Join(dir, name)` for the simple two-component case. -/
def filepathJoin (dir name : String) : String := dir ++ "/" ++ name

/-- Environment of one `runChunkedDownload` call: the outcome of each external
effect. `probe` is `getFileSize` (HEAD); `createOk` is `os.Create`;
`truncateOk` is `file.Truncate`; `chunkErr i` / `writeErr i` are the results
of `downloadChunkWithRetry` / `writeChunkToFile` for chunk index `i`
(`none` = success); `cancelled` is the caller's context firing while waiting. -/
structure ChunkedEnv where
  probe : Except GoErr Nat
  createOk : Bool
  truncateOk : Bool
  chunkErr : Nat → Option GoErr
  writeErr : Nat → Option GoErr
  cancelled : Bool

/-- The first error latched by `errOnce` (src/util/download.go:217-234),
resolved deterministically to the least failing chunk index (one admissible
schedule); wrapping mirrors `fmt.Errorf("chunk %d: %w", ...)` and
`fmt.Errorf("failed to write chunk %d: %w", ...)`. -/
def firstChunkFailure (env : ChunkedEnv) (n : Nat) : Option GoErr :=
  (List.range n).findSome? fun i =>
    match env.chunkErr i with
    | some e => some (.wrap ("chunk " ++ toString i) e)
    | none =>
      match env.writeErr i with
      | some e => some (.wrap ("failed to write chunk " ++ toString i) e)
      | none => none

/-- Result of `runChunkedDownload` plus the externally observable state:
`diskFile = none` means the output path was never touched (probe or create
failed before/at `os.Create`); `some b` means the file exists on disk iff `b`.
`truncated` is the size passed to `file.Truncate` when it succeeded.
`requests` are the chunk GETs issued on the fully successful run. -/
structure ChunkedOutcome where
  err : Option GoErr
  diskFile : Option Bool
  truncated : Option Nat
  chunks : List (Nat × Nat)
  requests : List HTTPRequest

/-- Embedding of `runChunkedDownload` (src/util/download.go:163-270) over a
`ChunkedEnv`. Branches in source order: HEAD probe, `os.Create`,
`file.Truncate` (only for `fileSize > 0`; on failure the file is NOT removed),
chunked fetch with first-error cleanup (`os.Remove`), cancellation cleanup
(`os.Remove`), success. -/
def runChunkedDownload (env : ChunkedEnv) (fileURL : String) (chunkSize : Nat) :
    ChunkedOutcome :=
  match env.probe with
  | .error e =>
    { err := some e, diskFile := none, truncated := none, chunks := [], requests := [] }
  | .ok fileSize =>
    if env.createOk = false then
      { err := some (.wrap "failed to create file" (.msg "os.Create"))
        diskFile := none, truncated := none, chunks := [], requests := [] }
    else if 0 < fileSize ∧ env.truncateOk = false then
      { err := some (.wrap "failed to allocate file space" (.msg "Truncate"))
        diskFile := some true, truncated := none, chunks := [], requests := [] }
    else
      match firstChunkFailure env (createChunks fileSize chunkSize).length with
      | some e =>
        { err := some e, diskFile := some false
          truncated := if 0 < fileSize then some fileSize else none
          chunks := createChunks fileSize chunkSize, requests := [] }
      | none =>
        if env.cancelled then
          { err := some .ctxCanceled, diskFile := some false
            truncated := if 0 < fileSize then some fileSize else none
            chunks := createChunks fileSize chunkSize, requests := [] }
        else
          { err := none, diskFile := some true
            truncated := if 0 < fileSize then some fileSize else none
            chunks := createChunks fileSize chunkSize
            requests := (createChunks fileSize chunkSize).map (chunkRequest fileURL) }

/-- Per-call environment of `DownloadFile`: a chunked-download environment per
candidate URL, the remux outcome per URL, the `ensureDownloadDir` outcome, and
whether the caller's context is observed cancelled at loop iteration `k`. -/
structure DFEnv where
  envOf : String → ChunkedEnv
  remuxErr : String → Option GoErr
  ensureDirOk : Bool
  cancelAt : Nat → Bool

/-- Result of `DownloadFile`: the returned value, the candidate URLs actually
attempted (passed to `runChunkedDownload`), and whether the output file
exists on disk when the call returns. -/
structure DFResult where
  res : Except GoErr String
  attempted : List String
  fileOnDisk : Bool

/-- Embedding of `DownloadFile` (src/util/download.go:31-70): iterate the
candidate URLs, checking cancellation and `ensureDownloadDir` per iteration;
a failed `runChunkedDownload` appends its error and continues; on download
success, remux (when `config.Remux`) either fails the whole call or the
file path is returned. `k` numbers the loop iteration, `errs` is the
accumulated error slice, `fod` tracks whether the output path currently
holds a file. -/
def DownloadFile (cfg : DownloadConfig) (E : DFEnv) (fileName : String) :
    List String → Nat → List GoErr → Bool → DFResult
  | [], _, errs, fod =>
    { res := .error (.downloadFailed errs), attempted := [], fileOnDisk := fod }
  | u :: rest, k, errs, fod =>
    if E.cancelAt k then
      { res := .error .ctxCanceled, attempted := [], fileOnDisk := fod }
    else if E.ensureDirOk = false then
      { res := .error (.wrap "failed to create downloads directory" (.msg "MkdirAll"))
        attempted := [], fileOnDisk := fod }
    else
      match (runChunkedDownload (E.envOf u) u cfg.ChunkSize).err with
      | some e =>
        let fod' := (runChunkedDownload (E.envOf u) u cfg.ChunkSize).diskFile.getD fod
        let r := DownloadFile cfg E fileName rest (k + 1) (errs ++ [e]) fod'
        { res := r.res, attempted := u :: r.attempted, fileOnDisk := r.fileOnDisk }
      | none =>
        let fod' := (runChunkedDownload (E.envOf u) u cfg.ChunkSize).diskFile.getD fod
        if cfg.Remux then
          match E.remuxErr u with
          | some e =>
            { res := .error (.wrap "remuxing failed" e), attempted := [u]
              fileOnDisk := fod' }
          | none =>
            { res := .ok (filepathJoin cfg.DownloadDir fileName), attempted := [u]
              fileOnDisk := fod' }
        else
          { res := .ok (filepathJoin cfg.DownloadDir fileName), attempted := [u]
            fileOnDisk := fod' }

/-- Whether an error is the `fmt.Errorf("remuxing failed: %w", err)` wrapper
from `DownloadFile`. -/
def isRemuxFailure : GoErr → Bool
  | .wrap s _ => s = "remuxing failed"
  | _ => false

/-- The one failure path inside `runChunkedDownload` that returns an error
while the created output file is left on disk: the probe succeeded with a
positive size, `os.Create` succeeded, and `file.Truncate` failed
(src/util/download.go:181-185 returns without `os.Remove`). -/
def truncateFailPath (env : ChunkedEnv) : Prop :=
  ∃ N, env.probe = .ok N ∧ 0 < N ∧ env.createOk = true ∧ env.truncateOk = false

/-- Observable events of `downloadChunkWithRetry`: waiting `RetryDelay`
between attempts, and issuing attempt `n`. -/
inductive RetryEvent where
  | wait (d : Nat)
  | attempt (n : Nat)

/-- Whether a retry event is a download attempt. -/
def isAttemptEv : RetryEvent → Bool
  | .attempt _ => true
  | _ => false

/-- The `for attempt := 0; attempt <= config.RetryAttempts; attempt++` loop of
`downloadChunkWithRetry` (src/util/download.go:303-319). `res n` is the result
of the `n`-th `downloadChunk` call; `cancelledAt n` is the caller's context
firing during the wait before attempt `n`; `fuel` counts the remaining loop
iterations (`retryAttempts + 1 - attempt`). Exiting the loop returns
`fmt.Errorf("all %d attempts failed: %w", config.RetryAttempts+1, lastErr)`. -/
def retryLoop (res : Nat → Except GoErr (List Nat)) (cancelledAt : Nat → Bool)
    (retryAttempts retryDelay : Nat) :
    Nat → Nat → Option GoErr → Except GoErr (List Nat) × List RetryEvent
  | _, 0, lastErr =>
    (.error (.wrap ("all " ++ toString (retryAttempts + 1) ++ " attempts failed")
      (lastErr.getD (.msg "<nil>"))), [])
  | attemptIdx, fuel + 1, _ =>
    if 0 < attemptIdx ∧ cancelledAt attemptIdx then
      (.error .ctxCanceled, [])
    else
      match res attemptIdx with
      | .ok d =>
        (.ok d, (if 0 < attemptIdx then [RetryEvent.wait retryDelay] else [])
          ++ [.attempt attemptIdx])
      | .error e =>
        let r := retryLoop res cancelledAt retryAttempts retryDelay
          (attemptIdx + 1) fuel (some e)
        (r.1, (if 0 < attemptIdx then [RetryEvent.wait retryDelay] else [])
          ++ .attempt attemptIdx :: r.2)

/-- Embedding of `downloadChunkWithRetry` (src/util/download.go:295-322),
returning the Go result together with the trace of waits and attempts. -/
def downloadChunkWithRetry (res : Nat → Except GoErr (List Nat))
    (cancelledAt : Nat → Bool) (retryAttempts retryDelay : Nat) :
    Except GoErr (List Nat) × List RetryEvent :=
  retryLoop res cancelledAt retryAttempts retryDelay 0 (retryAttempts + 1) none

/-- The trace of a run of `retryLoop` in which every attempt fails, starting
at attempt `attemptIdx` with `fuel` iterations left. -/
def failTrace (retryDelay : Nat) : Nat → Nat → List RetryEvent
  | _, 0 => []
  | attemptIdx, fuel + 1 =>
    (if 0 < attemptIdx then [RetryEvent.wait retryDelay] else [])
      ++ .attempt attemptIdx :: failTrace retryDelay (attemptIdx + 1) fuel

/-- The progress values computed under `progressMutex`
(src/util/download.go:236-247), in completion order of the chunks: after each
chunk, `completedBytes` grows by `chunk[1] - chunk[0] + 1` and the pair
`(completedBytes, fileSize)` records the arguments of the float division
`float64(completedBytes) / float64(fileSize)` passed to `ProgressUpdater`.
The code performs the division and the callback invocation with NO guard on
`fileSize = 0`. -/
def progressCalls (fileSize : Nat) : Nat → List (Nat × Nat) → List (Nat × Nat)
  | _, [] => []
  | completed, ch :: rest =>
    (completed + chunkLen ch, fileSize) ::
      progressCalls fileSize (completed + chunkLen ch) rest

/-- Go's `fmt.Sprintf("%05d", idx)` for a non-negative index: decimal digits
left-padded with zeros to width 5. -/
def padZero5 (n : Nat) : String :=
  let s := toString n
  if s.length < 5 then String.mk (List.replicate (5 - s.length) '0') ++ s.data.asString
  else s

/-- The deterministic per-segment filename `fmt.Sprintf("segment_%05d", idx)`
(src/util/download.go:408). -/
def segmentFileName (idx : Nat) : String := "segment_" ++ padZero5 idx

/-- The arguments `DownloadSegments` passes to `DownloadFile` for one
segment. -/
structure SegCall where
  URLList : List String
  fileName : String
  config : DownloadConfig

/-- The `DownloadFile` invocation built for segment `idx`
(src/util/download.go:408-420): URL list `[url]`, filename
`segment_%05d`, and a config copying `ChunkSize`/`Timeout`/
`RetryAttempts`/`RetryDelay` but fixing `Concurrency = 3`, `DownloadDir =
tempDir`, `Remux = false` and no `ProgressUpdater`. -/
def segmentCall (config : DownloadConfig) (tempDir : String) (idx : Nat)
    (url : String) : SegCall :=
  { URLList := [url]
    fileName := segmentFileName idx
    config :=
      { ChunkSize := config.ChunkSize
        Concurrency := 3
        Timeout := config.Timeout
        DownloadDir := tempDir
        RetryAttempts := config.RetryAttempts
        RetryDelay := config.RetryDelay
        Remux := false
        ProgressUpdater := false } }

/-- The concurrent writes `downloadedFiles[idx] = segmentPath`
(src/util/download.go:427) applied in goroutine completion order `order`
over the initial slice (`none` = the zero value). The value written at a
cell depends only on the cell's index. -/
def applyCompletions (path : Nat → String) :
    List Nat → List (Option String) → List (Option String)
  | [], files => files
  | i :: rest, files => applyCompletions path rest (files.set i (some (path i)))

/-- Embedding of `DownloadSegments` (src/util/download.go:378-444): `segErr i`
is the outcome of segment `i`'s `DownloadFile` call; if any segment fails the
temp dir is removed and the first received error (resolved to the least
failing index) is returned; otherwise the slice filled in completion order
`order` is returned. -/
def DownloadSegments (tempDir : String) (segmentURLs : List String)
    (order : List Nat) (segErr : Nat → Option GoErr) :
    Except GoErr (List (Option String)) :=
  match (List.range segmentURLs.length).findSome?
      (fun i => (segErr i).map
        (fun e => GoErr.wrap ("failed to download segment " ++ toString i) e)) with
  | some e => .error e
  | none =>
    .ok (applyCompletions (fun i => filepathJoin tempDir (segmentFileName i)) order
      (List.replicate segmentURLs.length none))

/-- Embedding of `downloadInMemory` (src/util/download.go:131-152): one GET;
`resp u` is the transport outcome for URL `u`, `(status, body)` on response.
Only `http.StatusOK` (200) is accepted; every other status — including other
2xx codes — is an error. -/
def downloadInMemory (resp : String → Except GoErr (Nat × List Nat))
    (fileURL : String) : Except GoErr (List Nat) :=
  match resp fileURL with
  | .error e => .error (.wrap "failed to download file" e)
  | .ok (status, body) =>
    if status ≠ 200 then .error (.msg ("unexpected status code: " ++ toString status))
    else .ok body

/-- Embedding of `DownloadFileInMemory` (src/util/download.go:104-129): try
each candidate URL in order (checking cancellation per iteration), collect
per-URL errors, return the body bytes of the first success (Go wraps them in
`bytes.NewReader`), else `ErrDownloadFailed` over the aggregated errors. -/
def DownloadFileInMemory (resp : String → Except GoErr (Nat × List Nat))
    (cancelAt : Nat → Bool) :
    List String → Nat → List GoErr → Except GoErr (List Nat)
  | [], _, errs => .error (.downloadFailed errs)
  | u :: rest, k, errs =>
    if cancelAt k then .error .ctxCanceled
    else
      match downloadInMemory resp u with
      | .error e => DownloadFileInMemory resp cancelAt rest (k + 1) (errs ++ [e])
      | .ok data => .ok data

/-- The alternative host chosen by `GetRedditData` on a non-200 first
response (src/unnamed/part_000, `GetRedditData`): `old.reddit.com`, or
`www.reddit.com` when the first host was already `old.reddit.com`. -/
def redditAltHost (host : String) : String :=
  if host = "old.reddit.com" then "www.reddit.com" else "old.reddit.com"

/-- The `raise = true` instance of `GetRedditData`: any non-200 status is
fatal, with no further attempt. `fetch h` is the transport outcome (status)
of the GET against host `h`; `decode h` the JSON decode of its body;
`cookiesOk` whether `util.ParseCookieFile("reddit.txt")` succeeded. Returns
the Go result paired with the list of hosts actually contacted. -/
def getRedditDataRaise (fetch : String → Except GoErr Nat)
    (decode : String → Except GoErr Nat) (cookiesOk : Bool) (host : String) :
    Except GoErr Nat × List String :=
  if cookiesOk = false then (.error (.wrap "failed to get cookies" (.msg "cookies")), [])
  else
    match fetch host with
    | .error e => (.error (.wrap "failed to send request" e), [host])
    | .ok status =>
      if status ≠ 200 then
        (.error (.msg ("failed to get reddit data: " ++ toString status)), [host])
      else
        match decode host with
        | .error e => (.error (.wrap "failed to parse response" e), [host])
        | .ok v => (.ok v, [host])

/-- Embedding of `GetRedditData` (src/unnamed/part_000:257-306). The Go
function recurses with `raise = true`, which cannot recurse again, so the
embedding unrolls that single recursive call into `getRedditDataRaise`. -/
def GetRedditData (fetch : String → Except GoErr Nat)
    (decode : String → Except GoErr Nat) (cookiesOk : Bool) (host : String)
    (raiseErr : Bool) : Except GoErr Nat × List String :=
  if raiseErr then getRedditDataRaise fetch decode cookiesOk host
  else if cookiesOk = false then
    (.error (.wrap "failed to get cookies" (.msg "cookies")), [])
  else
    match fetch host with
    | .error e => (.error (.wrap "failed to send request" e), [host])
    | .ok status =>
      if status ≠ 200 then
        let r := getRedditDataRaise fetch decode cookiesOk (redditAltHost host)
        (r.1, host :: r.2)
      else
        match decode host with
        | .error e => (.error (.wrap "failed to parse response" e), [host])
        | .ok v => (.ok v, [host])

theorem createChunks_base (N c : Nat) (hc : 0 < c) (hN : 0 < N) (h : N ≤ c) :
    createChunks N c = [(0, N - 1)] := by
  unfold createChunks
  rw [if_neg (by omega)]
  have h1 : (N + c - 1) / c = 1 := by
    rw [show N + c - 1 = (N - 1) + 1 * c by omega, Nat.add_mul_div_right _ _ hc,
        Nat.div_eq_of_lt (by omega)]
  rw [h1, show List.range 1 = [0] from rfl]
  simp only [List.map_cons, List.map_nil]
  have : ((0 : Nat) * c, if N ≤ 0 * c + c - 1 then N - 1 else 0 * c + c - 1)
      = ((0 : Nat), N - 1) := by
    simp only [Nat.zero_mul, Nat.zero_add]
    refine Prod.ext rfl ?_
    split <;> omega
  rw [this]

theorem createChunks_step (N c : Nat) (hc : 0 < c) (h : c < N) :
    createChunks N c = (0, c - 1) ::
      (createChunks (N - c) c).map (fun p => (p.1 + c, p.2 + c)) := by
  unfold createChunks
  rw [if_neg (by omega), if_neg (by omega)]
  have hk : (N + c - 1) / c = ((N - c) + c - 1) / c + 1 := by
    rw [show N + c - 1 = ((N - c) + c - 1) + c by omega, Nat.add_div_right _ hc]
  rw [hk, List.range_succ_eq_map, List.map_cons, List.map_map, List.map_map]
  have hhead : ((0 : Nat) * c, if N ≤ 0 * c + c - 1 then N - 1 else 0 * c + c - 1)
      = ((0 : Nat), c - 1) := by
    simp only [Nat.zero_mul, Nat.zero_add]
    rw [if_neg (by omega)]
  refine congrArg₂ List.cons hhead ?_
  apply List.map_congr_left
  intro j _
  simp only [Function.comp]
  have h1 : (j + 1) * c = j * c + c := by ring
  rw [h1]
  generalize j * c = a
  refine Prod.ext rfl ?_
  simp only
  split <;> split <;> omega

theorem createChunks_ne_nil (N c : Nat) (hc : 0 < c) (hN : 0 < N) :
    createChunks N c ≠ [] := by
  rcases le_or_lt N c with h | h
  · rw [createChunks_base N c hc hN h]; simp
  · rw [createChunks_step N c hc h]; simp

theorem createChunks_head (N c : Nat) (hc : 0 < c) (hN : 0 < N) :
    ∃ e, (createChunks N c).head? = some (0, e) := by
  rcases le_or_lt N c with h | h
  · rw [createChunks_base N c hc hN h]; exact ⟨N - 1, rfl⟩
  · rw [createChunks_step N c hc h]; exact ⟨c - 1, rfl⟩

theorem chunks_sum (c : Nat) (hc : 0 < c) :
    ∀ N, 0 < N → ((createChunks N c).map chunkLen).sum = N := by
  intro N
  induction N using Nat.strong_induction_on with
  | _ N ih =>
    intro hN
    rcases le_or_lt N c with h | h
    · rw [createChunks_base N c hc hN h]
      simp [chunkLen]; omega
    · rw [createChunks_step N c hc h]
      have ihs := ih (N - c) (by omega) (by omega)
      simp only [List.map_cons, List.map_map, List.sum_cons]
      have hmap : ((createChunks (N - c) c).map
          (chunkLen ∘ fun p => (p.1 + c, p.2 + c)))
          = (createChunks (N - c) c).map chunkLen := by
        apply List.map_congr_left
        intro p _
        simp only [Function.comp, chunkLen, Nat.add_sub_add_right]
      rw [hmap, ihs, chunkLen]
      simp only
      omega

theorem chunks_chain (c : Nat) (hc : 0 < c) :
    ∀ N, 0 < N →
      List.Chain' (fun a b : Nat × Nat => b.1 = a.2 + 1) (createChunks N c) := by
  intro N
  induction N using Nat.strong_induction_on with
  | _ N ih =>
    intro hN
    rcases le_or_lt N c with h | h
    · rw [createChunks_base N c hc hN h]
      simp
    · rw [createChunks_step N c hc h]
      rw [List.chain'_cons']
      constructor
      · intro y hy
        obtain ⟨e, he⟩ := createChunks_head (N - c) c hc (by omega)
        rw [List.head?_map, he] at hy
        simp only [Option.map_some', Option.mem_def, Option.some.injEq] at hy
        subst hy
        show 0 + c = c - 1 + 1
        omega
      · rw [List.chain'_map]
        apply List.Chain'.imp ?_ (ih (N - c) (by omega) (by omega))
        intro a b hab
        simp only at hab ⊢
        omega

theorem chunks_dropLast (c : Nat) (hc : 0 < c) :
    ∀ N, 0 < N → ∀ p ∈ (createChunks N c).dropLast, chunkLen p = c := by
  intro N
  induction N using Nat.strong_induction_on with
  | _ N ih =>
    intro hN p hp
    rcases le_or_lt N c with h | h
    · rw [createChunks_base N c hc hN h] at hp
      simp at hp
    · rw [createChunks_step N c hc h] at hp
      have hne : (createChunks (N - c) c).map (fun p => (p.1 + c, p.2 + c)) ≠ [] := by
        simp [createChunks_ne_nil (N - c) c hc (by omega)]
      obtain ⟨b, t', hbt⟩ := List.exists_cons_of_ne_nil hne
      rw [hbt, List.dropLast_cons₂, ← hbt] at hp
      rcases List.mem_cons.mp hp with hcase | hcase
      · subst hcase
        simp [chunkLen]
        omega
      · rw [← List.map_dropLast] at hcase
        obtain ⟨q, hq, hqe⟩ := List.mem_map.mp hcase
        have := ih (N - c) (by omega) (by omega) q hq
        subst hqe
        simp only [chunkLen, Nat.add_sub_add_right] at this ⊢
        exact this

theorem chunks_last (c : Nat) (hc : 0 < c) :
    ∀ N, 0 < N → ∃ s, (createChunks N c).getLast? = some (s, N - 1) := by
  intro N
  induction N using Nat.strong_induction_on with
  | _ N ih =>
    intro hN
    rcases le_or_lt N c with h | h
    · rw [createChunks_base N c hc hN h]
      exact ⟨0, rfl⟩
    · rw [createChunks_step N c hc h]
      obtain ⟨s, hs⟩ := ih (N - c) (by omega) (by omega)
      have hne : (createChunks (N - c) c).map (fun p => (p.1 + c, p.2 + c)) ≠ [] := by
        simp [createChunks_ne_nil (N - c) c hc (by omega)]
      obtain ⟨b, t', hbt⟩ := List.exists_cons_of_ne_nil hne
      rw [hbt, List.getLast?_cons_cons, ← hbt, List.getLast?_map, hs]
      refine ⟨s + c, ?_⟩
      show some (s + c, N - c - 1 + c) = some (s + c, N - 1)
      exact congrArg some (Prod.ext rfl (by show N - c - 1 + c = N - 1; omega))

/-- C1 (amended): for every file size `N > 0` and `chunkSize > 0`, the chunk
list produced by `createChunks` covers `[0, N)` exactly: the chunk sizes sum
to `N`, the first chunk starts at 0, consecutive chunks are adjacent with no
gap and no overlap, every chunk except possibly the last has size
`chunkSize`, and the last chunk ends at `N - 1`. (For `N = 0` the code
returns the sentinel `[(0, 0)]`, whose size is 1, so the original `N ≥ 0`
statement fails there — see the counterexample.) -/
theorem createChunks_partition (N c : Nat) (hN : 0 < N) (hc : 0 < c) :
    ((createChunks N c).map chunkLen).sum = N ∧
    (createChunks N c).head?.map Prod.fst = some 0 ∧
    List.Chain' (fun a b : Nat × Nat => b.1 = a.2 + 1) (createChunks N c) ∧
    (∀ p ∈ (createChunks N c).dropLast, chunkLen p = c) ∧
    (∃ s, (createChunks N c).getLast? = some (s, N - 1)) := by
  refine ⟨chunks_sum c hc N hN, ?_, chunks_chain c hc N hN,
    chunks_dropLast c hc N hN, chunks_last c hc N hN⟩
  obtain ⟨e, he⟩ := createChunks_head N c hc hN
  rw [he]
  rfl

/-- C1, counterexample to the claim as stated: at `N = 0` (with
`chunkSize = 1024 > 0`) the produced chunk list is the sentinel `[(0, 0)]`,
whose chunk sizes sum to 1, not to `N = 0`, and which does not cover the
empty interval `[0, 0)` exactly. -/
theorem createChunks_zero_size_counterexample :
    createChunks 0 1024 = [(0, 0)] ∧
    ((createChunks 0 1024).map chunkLen).sum = 1 ∧
    ((createChunks 0 1024).map chunkLen).sum ≠ 0 := by
  refine ⟨rfl, rfl, ?_⟩
  decide

/-- C1, witness: the partition theorem applied at `N = 5`, `chunkSize = 2`. -/
theorem createChunks_partition_witness :
    ((createChunks 5 2).map chunkLen).sum = 5 :=
  (createChunks_partition 5 2 (by decide) (by decide)).1

/-- C2 (amended): when the probe reports file size `N = 0` (Content-Length
absent or zero), the downloader uses the single-chunk partition `{[0,0]}`,
does not pre-truncate the output file, and — when the chunk succeeds without
retries or cancellation — issues exactly one GET request; but that GET is NOT
unranged: it carries the header `Range: bytes=0-0`, because `downloadChunk`
unconditionally adds a Range header (src/util/download.go:337). -/
theorem runChunkedDownload_unknown_size (env : ChunkedEnv) (url : String)
    (csz : Nat) (hp : env.probe = .ok 0) (hcr : env.createOk = true)
    (hch : env.chunkErr 0 = none) (hw : env.writeErr 0 = none)
    (hcn : env.cancelled = false) :
    (runChunkedDownload env url csz).chunks = [(0, 0)] ∧
    (runChunkedDownload env url csz).requests = [chunkRequest url (0, 0)] ∧
    (chunkRequest url (0, 0)).headers = [("Range", "bytes=0-0")] ∧
    (runChunkedDownload env url csz).truncated = none ∧
    (runChunkedDownload env url csz).err = none := by
  have hff : firstChunkFailure env (createChunks 0 csz).length = none := by
    show firstChunkFailure env 1 = none
    simp only [firstChunkFailure, List.range_succ, List.range_zero,
      List.nil_append, List.findSome?, hch, hw]
  simp only [runChunkedDownload, hp, hcr, hcn, hff]
  refine ⟨rfl, rfl, rfl, rfl, rfl⟩

/-- C2, counterexample to the claim as stated: for a probe result of 0 the
one GET request issued by the successful single-chunk download is a ranged
GET carrying `Range: bytes=0-0`, not an unranged GET. -/
theorem unknown_size_range_header_counterexample :
    (runChunkedDownload
        ⟨.ok 0, true, true, fun _ => none, fun _ => none, false⟩
        "https://cdn/example.mp4" 1024).requests =
      [{ method := "GET", url := "https://cdn/example.mp4"
         headers := [("Range", "bytes=0-0")] }] := by
  rfl

/-- C2, witness: the amended theorem applied to a concrete environment with
probe result 0. -/
theorem runChunkedDownload_unknown_size_witness :
    (runChunkedDownload
        ⟨.ok 0, true, true, fun _ => none, fun _ => none, false⟩ "u" 7).chunks
      = [(0, 0)] ∧
    (runChunkedDownload
        ⟨.ok 0, true, true, fun _ => none, fun _ => none, false⟩ "u" 7).err
      = none :=
  ⟨(runChunkedDownload_unknown_size _ "u" 7 rfl rfl rfl rfl rfl).1,
   (runChunkedDownload_unknown_size _ "u" 7 rfl rfl rfl rfl rfl).2.2.2.2⟩

theorem runChunkedDownload_leaves_file (env : ChunkedEnv) (url : String)
    (csz : Nat) (he : (runChunkedDownload env url csz).err ≠ none)
    (hd : (runChunkedDownload env url csz).diskFile = some true) :
    truncateFailPath env := by
  obtain ⟨probe, createOk, truncateOk, chunkErr, writeErr, cancelled⟩ := env
  cases probe with
  | error e => simp [runChunkedDownload] at hd
  | ok N =>
    cases createOk with
    | false => simp [runChunkedDownload] at hd
    | true =>
      cases truncateOk with
      | false =>
        rcases Nat.eq_zero_or_pos N with h0 | hpos
        · subst h0
          cases hff : firstChunkFailure
              ⟨.ok 0, true, false, chunkErr, writeErr, cancelled⟩
              (createChunks 0 csz).length with
          | some e' => simp [runChunkedDownload, hff] at hd
          | none =>
            cases cancelled with
            | true => simp [runChunkedDownload, hff] at hd
            | false => simp [runChunkedDownload, hff] at he
        · exact ⟨N, rfl, hpos, rfl, rfl⟩
      | true =>
        cases hff : firstChunkFailure
            ⟨.ok N, true, true, chunkErr, writeErr, cancelled⟩
            (createChunks N csz).length with
        | some e' => simp [runChunkedDownload, hff] at hd
        | none =>
          cases cancelled with
          | true => simp [runChunkedDownload, hff] at hd
          | false => simp [runChunkedDownload, hff] at he

theorem DownloadFile_cleanup_aux (cfg : DownloadConfig) (E : DFEnv)
    (fn : String) :
    ∀ (urls : List String) (k : Nat) (errs : List GoErr) (fod : Bool)
      (e : GoErr),
      (DownloadFile cfg E fn urls k errs fod).res = .error e →
      (DownloadFile cfg E fn urls k errs fod).fileOnDisk = true →
      isRemuxFailure e = true ∨ (∃ u ∈ urls, truncateFailPath (E.envOf u)) ∨
        fod = true := by
  intro urls
  induction urls with
  | nil =>
    intro k errs fod e _ hd
    right; right
    simpa [DownloadFile] using hd
  | cons u rest ih =>
    intro k errs fod e he hd
    by_cases hc : E.cancelAt k = true
    · simp only [DownloadFile, hc, if_true] at he hd
      right; right; exact hd
    · by_cases hdir : E.ensureDirOk = false
      · simp only [DownloadFile, hc, if_false, hdir, if_true,
          Bool.not_eq_true] at he hd
        · right; right; exact hd
      · cases herr : (runChunkedDownload (E.envOf u) u cfg.ChunkSize).err with
        | some e' =>
          simp only [DownloadFile, hc, hdir, herr, Bool.not_eq_true,
            if_false] at he hd
          rcases ih (k + 1) (errs ++ [e']) _ e he hd with h | h | h
          · exact Or.inl h
          · obtain ⟨v, hv, hvt⟩ := h
            exact Or.inr (Or.inl ⟨v, List.mem_cons_of_mem u hv, hvt⟩)
          · cases hdf : (runChunkedDownload (E.envOf u) u cfg.ChunkSize).diskFile
              with
            | none => rw [hdf] at h; right; right; exact h
            | some b =>
              rw [hdf] at h
              simp only [Option.getD_some] at h
              subst h
              refine Or.inr (Or.inl ⟨u, List.mem_cons_self u rest, ?_⟩)
              exact runChunkedDownload_leaves_file (E.envOf u) u cfg.ChunkSize
                (by rw [herr]; simp) hdf
        | none =>
          by_cases hrm : cfg.Remux = true
          · cases hre : E.remuxErr u with
            | some e' =>
              simp only [DownloadFile, hc, hdir, herr, hrm, hre,
                Bool.not_eq_true, if_false, if_true] at he hd
              left
              cases he
              simp [isRemuxFailure]
            | none =>
              simp [DownloadFile, hc, hdir, herr, hrm, hre] at he
          · simp [DownloadFile, hc, hdir, herr, hrm] at he

/-- C3 (amended): whenever `DownloadFile` (or its chunked download) returns an
error while the output file is still on disk, the failure was either a remux
failure after a successful download (src/util/download.go:59-64 returns
without removing the file) or a failed `Truncate` pre-allocation
(src/util/download.go:181-185, ditto). Contrapositively, every other failure
path — HEAD probe failure, chunk retry exhaustion, write failure,
cancellation — leaves no file on disk, as the claim states; the claim fails
on the two listed paths (see the counterexample). -/
theorem DownloadFile_cleanup (cfg : DownloadConfig) (E : DFEnv) (fn : String)
    (urls : List String) (e : GoErr)
    (he : (DownloadFile cfg E fn urls 0 [] false).res = .error e)
    (hd : (DownloadFile cfg E fn urls 0 [] false).fileOnDisk = true) :
    isRemuxFailure e = true ∨ ∃ u ∈ urls, truncateFailPath (E.envOf u) := by
  rcases DownloadFile_cleanup_aux cfg E fn urls 0 [] false e he hd with h | h | h
  · exact Or.inl h
  · exact Or.inr h
  · cases h

/-- C3, counterexample to the claim as stated: with a single candidate URL
whose probe reports size 10 and whose `Truncate` fails, `DownloadFile`
returns an error yet the created output file is still on disk. -/
theorem DownloadFile_cleanup_counterexample :
    (DownloadFile DefaultConfig
        ⟨fun _ => ⟨.ok 10, true, false, fun _ => none, fun _ => none, false⟩,
         fun _ => none, true, fun _ => false⟩
        "video.mp4" ["https://cdn/a"] 0 [] false).res =
      .error (.downloadFailed
        [.wrap "failed to allocate file space" (.msg "Truncate")]) ∧
    (DownloadFile DefaultConfig
        ⟨fun _ => ⟨.ok 10, true, false, fun _ => none, fun _ => none, false⟩,
         fun _ => none, true, fun _ => false⟩
        "video.mp4" ["https://cdn/a"] 0 [] false).fileOnDisk = true := by
  exact ⟨rfl, rfl⟩

/-- C3, witness: the amended cleanup theorem applied to the concrete
truncate-failure environment. -/
theorem DownloadFile_cleanup_witness :
    isRemuxFailure (.downloadFailed
        [.wrap "failed to allocate file space" (.msg "Truncate")]) = true ∨
    ∃ u ∈ ["https://cdn/a"], truncateFailPath
      ((⟨fun _ => ⟨.ok 10, true, false, fun _ => none, fun _ => none, false⟩,
         fun _ => none, true, fun _ => false⟩ : DFEnv).envOf u) :=
  DownloadFile_cleanup DefaultConfig
    ⟨fun _ => ⟨.ok 10, true, false, fun _ => none, fun _ => none, false⟩,
     fun _ => none, true, fun _ => false⟩
    "video.mp4" ["https://cdn/a"] _ rfl rfl

theorem retryLoop_step (res : Nat → Except GoErr (List Nat))
    (cancelledAt : Nat → Bool) (ra rd attemptIdx fuel : Nat)
    (lastErr : Option GoErr) :
    retryLoop res cancelledAt ra rd attemptIdx (fuel + 1) lastErr =
      if 0 < attemptIdx ∧ cancelledAt attemptIdx = true then
        (.error .ctxCanceled, [])
      else
        match res attemptIdx with
        | .ok d =>
          (.ok d, (if 0 < attemptIdx then [RetryEvent.wait rd] else [])
            ++ [.attempt attemptIdx])
        | .error e =>
          ((retryLoop res cancelledAt ra rd (attemptIdx + 1) fuel (some e)).1,
            (if 0 < attemptIdx then [RetryEvent.wait rd] else [])
              ++ .attempt attemptIdx ::
                (retryLoop res cancelledAt ra rd (attemptIdx + 1) fuel
                  (some e)).2) := rfl

theorem retryLoop_all_fail (res : Nat → Except GoErr (List Nat))
    (cancelledAt : Nat → Bool) (ra rd : Nat) (e : Nat → GoErr)
    (hnc : ∀ i, cancelledAt i = false) :
    ∀ (fuel attemptIdx : Nat) (lastErr : Option GoErr), 0 < fuel →
      (∀ i, attemptIdx ≤ i → i < attemptIdx + fuel → res i = .error (e i)) →
      retryLoop res cancelledAt ra rd attemptIdx fuel lastErr =
        (.error (.wrap ("all " ++ toString (ra + 1) ++ " attempts failed")
          (e (attemptIdx + fuel - 1))), failTrace rd attemptIdx fuel) := by
  intro fuel
  induction fuel with
  | zero => intro a l h; omega
  | succ f ihf =>
    intro attemptIdx lastErr _ hfail
    rw [retryLoop_step, hfail attemptIdx (Nat.le_refl _) (by omega),
      if_neg (by simp [hnc])]
    cases f with
    | zero =>
      simp [retryLoop, failTrace]
    | succ f' =>
      have hidx : attemptIdx + 1 + (f' + 1) - 1 = attemptIdx + (f' + 1 + 1) - 1 := by
        omega
      simp only [ihf (attemptIdx + 1) (some (e attemptIdx)) (by omega)
        (fun i h1 h2 => hfail i (by omega) (by omega)), hidx]
      simp [failTrace]

theorem failTrace_pos (rd : Nat) :
    ∀ (fuel a : Nat), 0 < a →
      failTrace rd a fuel =
        (List.range fuel).flatMap (fun j => [.wait rd, .attempt (a + j)]) := by
  intro fuel
  induction fuel with
  | zero => intro a _; simp [failTrace]
  | succ f ihf =>
    intro a ha
    rw [List.range_succ_eq_map, List.flatMap_cons, List.flatMap_map]
    have h1 : failTrace rd a (f + 1) =
        [RetryEvent.wait rd] ++ .attempt a :: failTrace rd (a + 1) f := by
      simp [failTrace, ha]
    rw [h1, ihf (a + 1) (by omega)]
    have hf : (fun j => [RetryEvent.wait rd, RetryEvent.attempt (a + 1 + j)])
        = (fun j => [RetryEvent.wait rd, RetryEvent.attempt (a + Nat.succ j)]) := by
      funext j
      have hj : a + 1 + j = a + Nat.succ j := by omega
      rw [hj]
    rw [hf]
    simp [Function.comp]

theorem countP_attempt_flatMap (rd : Nat) (g : Nat → Nat) :
    ∀ l : List Nat,
      ((l.flatMap (fun i => [RetryEvent.wait rd, RetryEvent.attempt (g i)])).countP
        isAttemptEv) = l.length := by
  intro l
  induction l with
  | nil => rfl
  | cons a t ih =>
    rw [List.flatMap_cons, List.countP_append, ih]
    simp [List.countP_cons, isAttemptEv]
    omega

/-- C4: for a chunk whose download fails at every attempt (and with no
cancellation), `downloadChunkWithRetry` makes exactly `RetryAttempts + 1`
attempts, with one `RetryDelay` wait between consecutive attempts — the trace
is `attempt 0, wait, attempt 1, ..., wait, attempt RetryAttempts` — and the
returned error wraps the error of the last attempt in
`fmt.Errorf("all %d attempts failed: %w", RetryAttempts+1, lastErr)`. -/
theorem downloadChunkWithRetry_exhaustion (res : Nat → Except GoErr (List Nat))
    (cancelledAt : Nat → Bool) (ra rd : Nat) (e : Nat → GoErr)
    (hfail : ∀ i, i ≤ ra → res i = .error (e i))
    (hnc : ∀ i, cancelledAt i = false) :
    downloadChunkWithRetry res cancelledAt ra rd =
      (.error (.wrap ("all " ++ toString (ra + 1) ++ " attempts failed") (e ra)),
       .attempt 0 :: (List.range ra).flatMap
          (fun i => [.wait rd, .attempt (i + 1)])) ∧
    (downloadChunkWithRetry res cancelledAt ra rd).2.countP isAttemptEv
      = ra + 1 := by
  have htr : downloadChunkWithRetry res cancelledAt ra rd =
      (.error (.wrap ("all " ++ toString (ra + 1) ++ " attempts failed") (e ra)),
       .attempt 0 :: (List.range ra).flatMap
          (fun i => [.wait rd, .attempt (i + 1)])) := by
    unfold downloadChunkWithRetry
    rw [retryLoop_all_fail res cancelledAt ra rd e hnc (ra + 1) 0 none
      (by omega) (fun i h1 h2 => hfail i (by omega))]
    have h0 : (0 : Nat) + (ra + 1) - 1 = ra := by omega
    rw [h0]
    have hft : failTrace rd 0 (ra + 1) =
        RetryEvent.attempt 0 :: failTrace rd 1 ra := by
      simp [failTrace]
    rw [hft, failTrace_pos rd ra 1 (by omega)]
    have hf : (fun j => [RetryEvent.wait rd, RetryEvent.attempt (1 + j)])
        = (fun i => [RetryEvent.wait rd, RetryEvent.attempt (i + 1)]) := by
      funext j
      have hj : 1 + j = j + 1 := by omega
      rw [hj]
    rw [hf]
  refine ⟨htr, ?_⟩
  rw [htr]
  simp only [List.countP_cons]
  rw [countP_attempt_flatMap rd (fun i => i + 1) (List.range ra)]
  simp [isAttemptEv, List.length_range]

/-- C4, witness: retry exhaustion at `RetryAttempts = 1`, `RetryDelay = 7`
with every attempt failing with the same error. -/
theorem downloadChunkWithRetry_exhaustion_witness :
    downloadChunkWithRetry (fun _ => .error (.msg "500")) (fun _ => false) 1 7 =
      (.error (.wrap ("all " ++ toString (1 + 1) ++ " attempts failed")
        (.msg "500")),
       .attempt 0 :: (List.range 1).flatMap
          (fun i => [.wait 7, .attempt (i + 1)])) :=
  (downloadChunkWithRetry_exhaustion (fun _ => .error (.msg "500"))
    (fun _ => false) 1 7 (fun _ => .msg "500") (fun _ _ => rfl)
    (fun _ => rfl)).1

theorem DownloadFile_first_success_aux (cfg : DownloadConfig) (E : DFEnv)
    (fn : String) (hdir : E.ensureDirOk = true)
    (hnc : ∀ k, E.cancelAt k = false) (u : String) (post : List String)
    (hu : (runChunkedDownload (E.envOf u) u cfg.ChunkSize).err = none) :
    ∀ (pre : List String) (k : Nat) (errs : List GoErr) (fod : Bool),
      (∀ v ∈ pre, (runChunkedDownload (E.envOf v) v cfg.ChunkSize).err ≠ none) →
      (DownloadFile cfg E fn (pre ++ u :: post) k errs fod).res =
        (if cfg.Remux then
          match E.remuxErr u with
          | some er => .error (.wrap "remuxing failed" er)
          | none => .ok (filepathJoin cfg.DownloadDir fn)
         else .ok (filepathJoin cfg.DownloadDir fn)) ∧
      (DownloadFile cfg E fn (pre ++ u :: post) k errs fod).attempted
        = pre ++ [u] := by
  intro pre
  induction pre with
  | nil =>
    intro k errs fod _
    simp only [List.nil_append]
    by_cases hrm : cfg.Remux = true
    · cases hre : E.remuxErr u with
      | some er => simp [DownloadFile, hnc k, hdir, hu, hrm, hre]
      | none => simp [DownloadFile, hnc k, hdir, hu, hrm, hre]
    · simp [DownloadFile, hnc k, hdir, hu, hrm]
  | cons v pre' ih =>
    intro k errs fod hpre
    have hv := hpre v (List.mem_cons_self v pre')
    cases hverr : (runChunkedDownload (E.envOf v) v cfg.ChunkSize).err with
    | none => exact absurd hverr hv
    | some e' =>
      have hrest := ih (k + 1) (errs ++ [e'])
        ((runChunkedDownload (E.envOf v) v cfg.ChunkSize).diskFile.getD fod)
        (fun w hw => hpre w (List.mem_cons_of_mem v hw))
      simp only [List.cons_append]
      simp only [DownloadFile, hnc k, hdir, hverr, Bool.false_eq_true,
        if_false, Bool.true_eq_false]
      refine ⟨hrest.1, ?_⟩
      simp only [hrest.2, List.cons_append]

theorem DownloadFile_all_fail_aux (cfg : DownloadConfig) (E : DFEnv)
    (fn : String) (hdir : E.ensureDirOk = true)
    (hnc : ∀ k, E.cancelAt k = false) (f : String → GoErr) :
    ∀ (urls : List String) (k : Nat) (errs : List GoErr) (fod : Bool),
      (∀ v ∈ urls, (runChunkedDownload (E.envOf v) v cfg.ChunkSize).err
        = some (f v)) →
      (DownloadFile cfg E fn urls k errs fod).res =
        .error (.downloadFailed (errs ++ urls.map f)) ∧
      (DownloadFile cfg E fn urls k errs fod).attempted = urls := by
  intro urls
  induction urls with
  | nil =>
    intro k errs fod _
    simp [DownloadFile]
  | cons v rest ih =>
    intro k errs fod hall
    have hv := hall v (List.mem_cons_self v rest)
    have hrest := ih (k + 1) (errs ++ [f v])
      ((runChunkedDownload (E.envOf v) v cfg.ChunkSize).diskFile.getD fod)
      (fun w hw => hall w (List.mem_cons_of_mem v hw))
    simp only [DownloadFile, hnc k, hdir, hv, Bool.false_eq_true, if_false,
      Bool.true_eq_false]
    constructor
    · rw [hrest.1]
      simp
    · simp only [hrest.2]

/-- C5 (amended): `DownloadFile` tries the candidate URLs strictly in list
order. The first URL whose `runChunkedDownload` succeeds ends the iteration:
if `Remux` is disabled or the remux succeeds, its path is returned and no
later URL is attempted; if the remux fails, the remux error is returned
immediately — without trying the remaining URLs, even if a later candidate
would have succeeded (so the original claim's "first URL whose download and
optional remux succeeds" fails; see the counterexample). If every candidate
URL's download fails, a `DownloadFailed` error aggregating the per-URL errors
in list order is returned. -/
theorem DownloadFile_order (cfg : DownloadConfig) (E : DFEnv) (fn : String)
    (hdir : E.ensureDirOk = true) (hnc : ∀ k, E.cancelAt k = false) :
    (∀ (pre : List String) (u : String) (post : List String),
      (∀ v ∈ pre, (runChunkedDownload (E.envOf v) v cfg.ChunkSize).err ≠ none) →
      (runChunkedDownload (E.envOf u) u cfg.ChunkSize).err = none →
      (cfg.Remux = true → E.remuxErr u = none) →
      (DownloadFile cfg E fn (pre ++ u :: post) 0 [] false).res
          = .ok (filepathJoin cfg.DownloadDir fn) ∧
      (DownloadFile cfg E fn (pre ++ u :: post) 0 [] false).attempted
          = pre ++ [u]) ∧
    (∀ (pre : List String) (u : String) (post : List String) (er : GoErr),
      (∀ v ∈ pre, (runChunkedDownload (E.envOf v) v cfg.ChunkSize).err ≠ none) →
      (runChunkedDownload (E.envOf u) u cfg.ChunkSize).err = none →
      cfg.Remux = true → E.remuxErr u = some er →
      (DownloadFile cfg E fn (pre ++ u :: post) 0 [] false).res
          = .error (.wrap "remuxing failed" er) ∧
      (DownloadFile cfg E fn (pre ++ u :: post) 0 [] false).attempted
          = pre ++ [u]) ∧
    (∀ (urls : List String) (f : String → GoErr),
      (∀ v ∈ urls,
        (runChunkedDownload (E.envOf v) v cfg.ChunkSize).err = some (f v)) →
      (DownloadFile cfg E fn urls 0 [] false).res
          = .error (.downloadFailed (urls.map f)) ∧
      (DownloadFile cfg E fn urls 0 [] false).attempted = urls) := by
  refine ⟨?_, ?_, ?_⟩
  · intro pre u post hpre hu hrm
    have h := DownloadFile_first_success_aux cfg E fn hdir hnc u post hu pre
      0 [] false hpre
    refine ⟨?_, h.2⟩
    rw [h.1]
    by_cases hr : cfg.Remux = true
    · rw [if_pos hr, hrm hr]
    · rw [if_neg hr]
  · intro pre u post er hpre hu hr hre
    have h := DownloadFile_first_success_aux cfg E fn hdir hnc u post hu pre
      0 [] false hpre
    refine ⟨?_, h.2⟩
    rw [h.1, if_pos hr, hre]
  · intro urls f hall
    have h := DownloadFile_all_fail_aux cfg E fn hdir hnc f urls 0 [] false hall
    exact ⟨by rw [h.1]; simp, h.2⟩

/-- C5, counterexample to the claim as stated: with candidates
`["u1", "u2"]` where `u1`'s download succeeds but its remux fails, while
`u2`'s download and remux would both succeed, `DownloadFile` returns the
remux error — not the path determined by `u2` — and never attempts `u2`. -/
theorem DownloadFile_order_counterexample :
    (DownloadFile DefaultConfig
        ⟨fun _ => ⟨.ok 10, true, true, fun _ => none, fun _ => none, false⟩,
         fun v => if v = "u1" then some (.msg "bad container") else none,
         true, fun _ => false⟩
        "f.mp4" ["u1", "u2"] 0 [] false).res =
      .error (.wrap "remuxing failed" (.msg "bad container")) ∧
    (DownloadFile DefaultConfig
        ⟨fun _ => ⟨.ok 10, true, true, fun _ => none, fun _ => none, false⟩,
         fun v => if v = "u1" then some (.msg "bad container") else none,
         true, fun _ => false⟩
        "f.mp4" ["u1", "u2"] 0 [] false).attempted = ["u1"] := by
  exact ⟨rfl, rfl⟩

/-- C5, witness: the all-fail clause of the order theorem applied to two
concrete candidates that both fail their HEAD probe. -/
theorem DownloadFile_order_witness :
    (DownloadFile DefaultConfig
        ⟨fun _ => ⟨.error (.msg "head 500"), true, true, fun _ => none,
          fun _ => none, false⟩,
         fun _ => none, true, fun _ => false⟩
        "f.mp4" ["a", "b"] 0 [] false).res =
      .error (.downloadFailed (["a", "b"].map (fun _ => .msg "head 500"))) ∧
    (DownloadFile DefaultConfig
        ⟨fun _ => ⟨.error (.msg "head 500"), true, true, fun _ => none,
          fun _ => none, false⟩,
         fun _ => none, true, fun _ => false⟩
        "f.mp4" ["a", "b"] 0 [] false).attempted = ["a", "b"] :=
  (DownloadFile_order DefaultConfig
    ⟨fun _ => ⟨.error (.msg "head 500"), true, true, fun _ => none,
      fun _ => none, false⟩,
     fun _ => none, true, fun _ => false⟩
    "f.mp4" rfl (fun _ => rfl)).2.2 ["a", "b"] (fun _ => .msg "head 500")
    (fun _ _ => rfl)

theorem progressCalls_facts (N : Nat) :
    ∀ (l : List (Nat × Nat)) (completed : Nat),
      (∀ p ∈ progressCalls N completed l,
        p.2 = N ∧ completed < p.1 ∧ p.1 ≤ completed + (l.map chunkLen).sum) ∧
      List.Chain' (fun a b : Nat × Nat => a.1 ≤ b.1 ∧ a.2 = N ∧ b.2 = N)
        (progressCalls N completed l) ∧
      (l ≠ [] → (progressCalls N completed l).getLast?
        = some (completed + (l.map chunkLen).sum, N)) := by
  intro l
  induction l with
  | nil =>
    intro completed
    refine ⟨by simp [progressCalls], by simp [progressCalls], by simp⟩
  | cons ch rest ih =>
    intro completed
    have ih' := ih (completed + chunkLen ch)
    refine ⟨?_, ?_, ?_⟩
    · intro p hp
      rw [progressCalls] at hp
      have hlen : 1 ≤ chunkLen ch := by simp [chunkLen]
      rcases List.mem_cons.mp hp with h | h
      · subst h
        refine ⟨rfl, by omega, ?_⟩
        simp only [List.map_cons, List.sum_cons]
        omega
      · obtain ⟨h2, hlt, hle⟩ := ih'.1 p h
        refine ⟨h2, by omega, ?_⟩
        simp only [List.map_cons, List.sum_cons]
        omega
    · rw [progressCalls, List.chain'_cons']
      refine ⟨?_, ih'.2.1⟩
      intro y hy
      cases rest with
      | nil => simp [progressCalls] at hy
      | cons ch2 r2 =>
        have hc2 : progressCalls N (completed + chunkLen ch) (ch2 :: r2)
            = (completed + chunkLen ch + chunkLen ch2, N)
              :: progressCalls N (completed + chunkLen ch + chunkLen ch2) r2 := rfl
        rw [hc2] at hy
        simp only [List.head?_cons, Option.mem_def, Option.some.injEq] at hy
        subst hy
        exact ⟨by omega, rfl, rfl⟩
    · intro _
      cases rest with
      | nil =>
        rw [progressCalls]
        simp [progressCalls, chunkLen]
      | cons ch2 r2 =>
        have hc2 : progressCalls N (completed + chunkLen ch) (ch2 :: r2)
            = (completed + chunkLen ch + chunkLen ch2, N)
              :: progressCalls N (completed + chunkLen ch + chunkLen ch2) r2 := rfl
        rw [progressCalls, hc2, List.getLast?_cons_cons, ← hc2,
          ih'.2.2 (by simp)]
        refine congrArg some (Prod.ext ?_ rfl)
        show completed + chunkLen ch + ((ch2 :: r2).map chunkLen).sum
            = completed + ((ch :: ch2 :: r2).map chunkLen).sum
        simp only [List.map_cons, List.sum_cons]
        omega

/-- C6 (amended): for a file of size `N > 0` and `chunkSize > 0`, in whatever
order the chunks complete, the successive progress values computed under the
mutex are of the form `completedBytes / N`, strictly positive, bounded by 1,
non-decreasing in computation order, and the last equals 1. When `N = 0`,
however, the code still invokes `ProgressUpdater` — with `completedBytes = 1`
and divisor `fileSize = 0` (an infinite float) — so the original claim's
"only invoked when N > 0" and "bounded in [0,1]" fail; see the
counterexample. (The callback itself is invoked after the mutex is released,
src/util/download.go:244-247, so this ordering is that of the computed
values.) -/
theorem progress_monotone_bounded (N c : Nat) (hN : 0 < N) (hc : 0 < c)
    (order : List (Nat × Nat)) (hperm : order.Perm (createChunks N c)) :
    (∀ p ∈ progressCalls N 0 order,
      p.2 = N ∧ 0 < (p.1 : ℚ) / (p.2 : ℚ) ∧ (p.1 : ℚ) / (p.2 : ℚ) ≤ 1) ∧
    List.Chain'
      (fun a b : Nat × Nat => (a.1 : ℚ) / (a.2 : ℚ) ≤ (b.1 : ℚ) / (b.2 : ℚ))
      (progressCalls N 0 order) ∧
    (progressCalls N 0 order).getLast? = some (N, N) := by
  have hsum : (order.map chunkLen).sum = N := by
    rw [(hperm.map chunkLen).sum_eq, chunks_sum c hc N hN]
  have hfacts := progressCalls_facts N order 0
  have hNQ : (0 : ℚ) < (N : ℚ) := by exact_mod_cast hN
  refine ⟨?_, ?_, ?_⟩
  · intro p hp
    obtain ⟨h2, hlt, hle⟩ := hfacts.1 p hp
    rw [h2]
    refine ⟨h2 ▸ h2 ▸ rfl, ?_, ?_⟩
    · apply div_pos ?_ hNQ
      exact_mod_cast (by omega : 0 < p.1)
    · rw [div_le_one hNQ]
      exact_mod_cast (by omega : p.1 ≤ N)
  · apply List.Chain'.imp ?_ hfacts.2.1
    intro a b hab
    obtain ⟨hle, ha2, hb2⟩ := hab
    rw [ha2, hb2]
    exact (div_le_div_iff_of_pos_right hNQ).mpr (by exact_mod_cast hle)
  · have hne : order ≠ [] := by
      intro h
      rw [h] at hperm
      exact createChunks_ne_nil N c hc hN hperm.symm.eq_nil
    rw [hfacts.2.2 hne, hsum]
    simp

/-- C6, counterexample to the claim as stated: when the probe reports size 0,
the single sentinel chunk `[0,0]` completes with `completedBytes = 1` and the
code invokes `ProgressUpdater` with `float64(1)/float64(0)` (positive
infinity) — the updater IS invoked although `N = 0`, with a value outside
`[0, 1]`. -/
theorem progress_zero_size_counterexample :
    progressCalls 0 0 (createChunks 0 1024) = [(1, 0)] := by
  rfl

/-- C6, witness: the progress theorem applied at `N = 4`, `chunkSize = 2`,
with chunks completing in list order. -/
theorem progress_monotone_bounded_witness :
    (progressCalls 4 0 (createChunks 4 2)).getLast? = some (4, 4) :=
  (progress_monotone_bounded 4 2 (by decide) (by decide) (createChunks 4 2)
    (List.Perm.refl _)).2.2

theorem applyCompletions_length (path : Nat → String) :
    ∀ (order : List Nat) (files : List (Option String)),
      (applyCompletions path order files).length = files.length := by
  intro order
  induction order with
  | nil => intro files; rfl
  | cons i rest ih =>
    intro files
    rw [applyCompletions, ih, List.length_set]

theorem applyCompletions_getElem (path : Nat → String) :
    ∀ (order : List Nat) (files : List (Option String)) (j : Nat),
      (applyCompletions path order files)[j]? =
        if j ∈ order ∧ j < files.length then some (some (path j))
        else files[j]? := by
  intro order
  induction order with
  | nil =>
    intro files j
    simp [applyCompletions]
  | cons i rest ih =>
    intro files j
    rw [applyCompletions, ih, List.length_set]
    by_cases hj : j ∈ rest ∧ j < files.length
    · rw [if_pos hj, if_pos ⟨List.mem_cons_of_mem i hj.1, hj.2⟩]
    · rw [if_neg hj, List.getElem?_set]
      by_cases hij : i = j
      · subst hij
        by_cases hlen : i < files.length
        · rw [if_pos rfl, if_pos hlen,
            if_pos ⟨List.mem_cons_self i rest, hlen⟩]
        · rw [if_pos rfl, if_neg hlen, if_neg (fun hc => hlen hc.2),
            List.getElem?_eq_none (by omega)]
      · rw [if_neg hij]
        have hnc : ¬(j ∈ i :: rest ∧ j < files.length) := by
          intro hcon
          rcases List.mem_cons.mp hcon.1 with h | h
          · exact hij h.symm
          · exact hj ⟨h, hcon.2⟩
        rw [if_neg hnc]

theorem applyCompletions_perm (path : Nat → String) (n : Nat)
    (order : List Nat) (h : order.Perm (List.range n)) :
    applyCompletions path order (List.replicate n none)
      = (List.range n).map (fun i => some (path i)) := by
  apply List.ext_getElem?
  intro j
  rw [applyCompletions_getElem, List.length_replicate]
  have hmem : j ∈ order ↔ j < n := by rw [h.mem_iff, List.mem_range]
  by_cases hj : j < n
  · rw [if_pos ⟨hmem.mpr hj, hj⟩, List.getElem?_map, List.getElem?_range hj]
    rfl
  · rw [if_neg (fun hc => hj hc.2),
      List.getElem?_eq_none (by rw [List.length_replicate]; omega),
      List.getElem?_eq_none (by rw [List.length_map, List.length_range]; omega)]

/-- C7: `DownloadSegments` invokes the chunked `DownloadFile` for each segment
with `Remux` disabled, `Concurrency` fixed at 3, no `ProgressUpdater`, a
single-URL list, the deterministic filename `segment_%05d` of its index, and
the temp directory as download dir; and on success — whatever order the
segment goroutines complete in (any permutation of the indices) — each
resulting path is recorded at its own segment index, so the returned list is
`[tempDir/segment_00000, tempDir/segment_00001, ...]` in segment-index
order. -/
theorem DownloadSegments_order (config : DownloadConfig) (tempDir : String)
    (idx : Nat) (url : String) :
    ((segmentCall config tempDir idx url).config.Concurrency = 3 ∧
     (segmentCall config tempDir idx url).config.Remux = false ∧
     (segmentCall config tempDir idx url).config.ProgressUpdater = false ∧
     (segmentCall config tempDir idx url).config.DownloadDir = tempDir ∧
     (segmentCall config tempDir idx url).URLList = [url] ∧
     (segmentCall config tempDir idx url).fileName = segmentFileName idx) ∧
    (∀ (segmentURLs : List String) (order : List Nat)
      (segErr : Nat → Option GoErr),
      order.Perm (List.range segmentURLs.length) →
      (∀ i, segErr i = none) →
      DownloadSegments tempDir segmentURLs order segErr =
        .ok ((List.range segmentURLs.length).map
          (fun i => some (filepathJoin tempDir (segmentFileName i))))) := by
  refine ⟨⟨rfl, rfl, rfl, rfl, rfl, rfl⟩, ?_⟩
  intro segmentURLs order segErr hperm hok
  rw [DownloadSegments]
  rw [List.findSome?_eq_none_iff.mpr (fun i _ => by rw [hok i]; rfl)]
  rw [applyCompletions_perm _ _ _ hperm]

/-- C7, witness: three segments completing in the order 2, 0, 1 still yield
the path list in segment-index order, and the per-segment call fixes
concurrency 3 with remux off. -/
theorem DownloadSegments_order_witness :
    DownloadSegments "t" ["a", "b", "c"] [2, 0, 1] (fun _ => none) =
      .ok ((List.range (["a", "b", "c"] : List String).length).map
        (fun i => some (filepathJoin "t" (segmentFileName i)))) ∧
    (segmentCall DefaultConfig "t" 0 "u").config.Concurrency = 3 ∧
    (segmentCall DefaultConfig "t" 0 "u").config.Remux = false :=
  ⟨(DownloadSegments_order DefaultConfig "t" 0 "u").2 ["a", "b", "c"]
      [2, 0, 1] (fun _ => none) (by decide) (fun _ => rfl),
   (DownloadSegments_order DefaultConfig "t" 0 "u").1.1,
   (DownloadSegments_order DefaultConfig "t" 0 "u").1.2.1⟩

theorem DownloadFileInMemory_first_success_aux
    (resp : String → Except GoErr (Nat × List Nat)) (cancelAt : Nat → Bool)
    (hnc : ∀ k, cancelAt k = false) (u : String) (post : List String)
    (body : List Nat) (hu : downloadInMemory resp u = .ok body) :
    ∀ (pre : List String) (k : Nat) (errs : List GoErr),
      (∀ v ∈ pre, ∃ e, downloadInMemory resp v = .error e) →
      DownloadFileInMemory resp cancelAt (pre ++ u :: post) k errs
        = .ok body := by
  intro pre
  induction pre with
  | nil =>
    intro k errs _
    simp [DownloadFileInMemory, hnc k, hu]
  | cons v pre' ih =>
    intro k errs hpre
    obtain ⟨e, he⟩ := hpre v (List.mem_cons_self v pre')
    simp only [List.cons_append, DownloadFileInMemory, hnc k,
      Bool.false_eq_true, if_false, he]
    exact ih (k + 1) (errs ++ [e])
      (fun w hw => hpre w (List.mem_cons_of_mem v hw))

theorem DownloadFileInMemory_all_fail_aux
    (resp : String → Except GoErr (Nat × List Nat)) (cancelAt : Nat → Bool)
    (hnc : ∀ k, cancelAt k = false) (f : String → GoErr) :
    ∀ (urls : List String) (k : Nat) (errs : List GoErr),
      (∀ v ∈ urls, downloadInMemory resp v = .error (f v)) →
      DownloadFileInMemory resp cancelAt urls k errs
        = .error (.downloadFailed (errs ++ urls.map f)) := by
  intro urls
  induction urls with
  | nil =>
    intro k errs _
    simp [DownloadFileInMemory]
  | cons v rest ih =>
    intro k errs hall
    have hv := hall v (List.mem_cons_self v rest)
    simp only [DownloadFileInMemory, hnc k, Bool.false_eq_true, if_false, hv]
    rw [ih (k + 1) (errs ++ [f v])
      (fun w hw => hall w (List.mem_cons_of_mem v hw))]
    simp

/-- C8 (amended): `DownloadFileInMemory` tries each candidate URL in order
with a single GET per URL; a response with status exactly 200 yields a
seekable reader over the body bytes (skipping URLs that failed earlier), and
when every candidate fails it returns `DownloadFailed` aggregating the
per-URL errors in order. However, any status other than 200 — including the
other 2xx codes — is treated as a failure (`downloadInMemory` checks
`resp.StatusCode != http.StatusOK`, src/util/download.go:147), so the
original claim's "whenever the status is in the 2xx range" fails; see the
counterexample. -/
theorem DownloadFileInMemory_status
    (resp : String → Except GoErr (Nat × List Nat)) (cancelAt : Nat → Bool)
    (hnc : ∀ k, cancelAt k = false) :
    (∀ u body, resp u = .ok (200, body) →
      downloadInMemory resp u = .ok body) ∧
    (∀ u status body, resp u = .ok (status, body) → status ≠ 200 →
      downloadInMemory resp u
        = .error (.msg ("unexpected status code: " ++ toString status))) ∧
    (∀ (pre : List String) (u : String) (post : List String) (body : List Nat),
      (∀ v ∈ pre, ∃ e, downloadInMemory resp v = .error e) →
      downloadInMemory resp u = .ok body →
      DownloadFileInMemory resp cancelAt (pre ++ u :: post) 0 [] = .ok body) ∧
    (∀ (urls : List String) (f : String → GoErr),
      (∀ v ∈ urls, downloadInMemory resp v = .error (f v)) →
      DownloadFileInMemory resp cancelAt urls 0 []
        = .error (.downloadFailed (urls.map f))) := by
  refine ⟨?_, ?_, ?_, ?_⟩
  · intro u body hu
    simp [downloadInMemory, hu]
  · intro u status body hu hst
    simp [downloadInMemory, hu, hst]
  · intro pre u post body hpre hu
    exact DownloadFileInMemory_first_success_aux resp cancelAt hnc u post body
      hu pre 0 [] hpre
  · intro urls f hall
    have h := DownloadFileInMemory_all_fail_aux resp cancelAt hnc f urls 0 []
      hall
    rw [h]
    simp

/-- C8, counterexample to the claim as stated: a candidate URL answering with
status 201 — inside the 2xx range — does not yield a reader; the status is
rejected and `DownloadFileInMemory` returns `DownloadFailed`. -/
theorem DownloadFileInMemory_2xx_counterexample :
    DownloadFileInMemory (fun _ => .ok (201, [7])) (fun _ => false)
        ["https://cdn/thumb.jpg"] 0 [] =
      .error (.downloadFailed [.msg "unexpected status code: 201"]) := by
  rfl

/-- C8, witness: the amended theorem applied to a first URL failing with
status 500 and a second URL succeeding with status 200. -/
theorem DownloadFileInMemory_status_witness :
    DownloadFileInMemory
        (fun u => if u = "good" then .ok (200, [1, 2]) else .ok (500, []))
        (fun _ => false) (["bad"] ++ "good" :: []) 0 [] = .ok [1, 2] :=
  (DownloadFileInMemory_status
      (fun u => if u = "good" then .ok (200, [1, 2]) else .ok (500, []))
      (fun _ => false) (fun _ => rfl)).2.2.1 ["bad"] "good" [] [1, 2]
    (fun v hv => by
      have hveq : v = "bad" := by simpa using hv
      subst hveq
      exact ⟨.msg "unexpected status code: 500", rfl⟩)
    rfl

/-- C9: when the Reddit data fetch gets a non-2xx response on the first
attempt (any non-2xx status is in particular not 200), it retries exactly
once against the alternative host — `old.reddit.com`, or `www.reddit.com`
when the first host was already `old.reddit.com` — and a non-2xx response on
that second attempt is returned as an error with no further attempt: the
contacted-host trace is exactly `[host, altHost]`. -/
theorem GetRedditData_retry (fetch decode : String → Except GoErr Nat)
    (host : String) (s1 s2 : Nat)
    (h1 : fetch host = .ok s1) (hs1 : s1 < 200 ∨ 300 ≤ s1)
    (h2 : fetch (redditAltHost host) = .ok s2) (hs2 : s2 < 200 ∨ 300 ≤ s2) :
    GetRedditData fetch decode true host false =
      (.error (.msg ("failed to get reddit data: " ++ toString s2)),
       [host, redditAltHost host]) ∧
    (host = "old.reddit.com" → redditAltHost host = "www.reddit.com") ∧
    (host ≠ "old.reddit.com" → redditAltHost host = "old.reddit.com") := by
  have hne1 : s1 ≠ 200 := by omega
  have hne2 : s2 ≠ 200 := by omega
  refine ⟨?_, fun h => by simp [redditAltHost, h],
    fun h => by simp [redditAltHost, h]⟩
  simp [GetRedditData, getRedditDataRaise, h1, h2, hne1, hne2]

/-- C9, witness: both hosts answering 500 starting from `www.reddit.com`. -/
theorem GetRedditData_retry_witness :
    GetRedditData (fun _ => .ok 500) (fun _ => .ok 0) true "www.reddit.com"
        false =
      (.error (.msg ("failed to get reddit data: " ++ toString 500)),
       ["www.reddit.com", redditAltHost "www.reddit.com"]) :=
  (GetRedditData_retry (fun _ => .ok 500) (fun _ => .ok 0) "www.reddit.com"
    500 500 rfl (by omega) rfl (by omega)).1

/-- C10: for an empty candidate URL list, `DownloadFile` and
`DownloadFileInMemory` return a `DownloadFailed` error with an empty cause
list — regardless of the environment (in particular even under prior
cancellation, since the cancellation check sits inside the loop body): they
neither succeed, attempt any URL, nor create any file — exactly as a list
whose candidates all failed is reported. -/
theorem empty_candidates (cfg : DownloadConfig) (E : DFEnv) (fn : String)
    (resp : String → Except GoErr (Nat × List Nat)) (cancelAt : Nat → Bool) :
    DownloadFile cfg E fn [] 0 [] false =
      { res := .error (.downloadFailed []), attempted := [],
        fileOnDisk := false } ∧
    DownloadFileInMemory resp cancelAt [] 0 []
      = .error (.downloadFailed []) :=
  ⟨rfl, rfl⟩
